import Mathlib

/-!
Verification of the BELTS max-flow solver (`part2_assignment/belts/main.py`) and
the FACTORY LP formulation (`part2_assignment/factory/main.py`).

Numbers: the Python code computes with IEEE doubles; here every quantity is an
exact rational (`ℚ`).  All concrete instances examined below use small integer
data on which double arithmetic is exact, so the rational model coincides with
the Python execution on those instances.  Arithmetic is expressed through
`mkRat`-based helper functions (`qadd`, `qsub`, ...) rather than the field
structure of `ℚ` only so that the kernel can evaluate them; they agree with the
field operations.

Strings: Python compares strings by code points; `strLtB` below implements the
same lexicographic order on the character lists of Lean strings.
-/

namespace Factorio

/-! ### Exact rational arithmetic helpers (kernel-reducible) -/

/-- Addition on `ℚ` via `mkRat`; agrees with `+`. -/
def qadd (a b : ℚ) : ℚ := mkRat (a.num * b.den + b.num * a.den) (a.den * b.den)

/-- Negation on `ℚ` via `mkRat`; agrees with `-·`. -/
def qneg (a : ℚ) : ℚ := mkRat (-a.num) a.den

/-- Subtraction on `ℚ`; agrees with `-`. -/
def qsub (a b : ℚ) : ℚ := qadd a (qneg b)

/-- Multiplication on `ℚ` via `mkRat`; agrees with `*`. -/
def qmul (a b : ℚ) : ℚ := mkRat (a.num * b.num) (a.den * b.den)

/-- Exact inverse on `ℚ` (0 for 0); agrees with `⁻¹`. -/
def qinv (a : ℚ) : ℚ :=
  if a.num > 0 then mkRat a.den a.num.toNat
  else if a.num < 0 then mkRat (-(a.den : Int)) (-a.num).toNat
  else 0

/-- Division on `ℚ`; agrees with `/`. -/
def qdiv (a b : ℚ) : ℚ := qmul a (qinv b)

/-- The rational with integer value `n`. -/
def qi (n : Int) : ℚ := mkRat n 1

/-- Strict order on `ℚ` as a boolean; agrees with `<`. -/
def qlt (a b : ℚ) : Bool := Rat.blt a b

/-- Absolute value on `ℚ`; agrees with `|·|`. -/
def qabs (a : ℚ) : ℚ := if qlt a 0 then qneg a else a

/-- Minimum of two rationals, as computed by Python `min`. -/
def qmin (a b : ℚ) : ℚ := if qlt b a then b else a

/-- The tolerance `1e-9` used by the Python code for nonzero-residual tests. -/
def eps9 : ℚ := mkRat 1 1000000000

/-- The tolerance `1e-6` used by the Python code for totals comparison. -/
def eps6 : ℚ := mkRat 1 1000000

/-- Decimal round-half-to-even to an integer.  Python `round` on a float uses
round-half-even on the binary value; this agrees with it whenever the argument
is exactly representable, which holds for every value rounded in this file. -/
def roundHalfEven (q : ℚ) : Int :=
  let n := Rat.floor q
  let r := qsub q (qi n)
  if qlt r (mkRat 1 2) then n
  else if qlt (mkRat 1 2) r then n + 1
  else if n % 2 = 0 then n else n + 1

/-- Model of Python `round(x, 2)`. -/
def round2 (q : ℚ) : ℚ := qdiv (qi (roundHalfEven (qmul q (qi 100)))) (qi 100)

/-! ### Strings, sorting, association lists -/

/-- Lexicographic comparison of character lists by code point, as Python
compares strings. -/
def lexLt : List Char → List Char → Bool
  | [], [] => false
  | [], _ :: _ => true
  | _ :: _, [] => false
  | c :: cs, d :: ds =>
    if c.val < d.val then true else if d.val < c.val then false else lexLt cs ds

/-- Python string `<`. -/
def strLtB (a b : String) : Bool := lexLt a.data b.data

/-- Python string `<=`. -/
def strLeB (a b : String) : Bool := !(strLtB b a)

/-- Insert into a list sorted by `le`. -/
def insertLe (le : α → α → Bool) (x : α) : List α → List α
  | [] => [x]
  | y :: ys => if le x y then x :: y :: ys else y :: insertLe le x ys

/-- Insertion sort by `le`; models Python `sorted` (the lists sorted in this
file never contain ties, so stability is immaterial). -/
def sortLe (le : α → α → Bool) : List α → List α
  | [] => []
  | x :: xs => insertLe le x (sortLe le xs)

/-- Append-if-absent, modelling insertion into a Python `set`/`dict` key set. -/
def addName (l : List String) (x : String) : List String :=
  if l.contains x then l else l ++ [x]

/-- Deduplicate preserving first occurrences. -/
def dedupNames (l : List String) : List String := l.foldl addName []

/-- First-occurrence lookup in an association list (Python `dict` access),
with default. -/
def alGetD [DecidableEq κ] (m : List (κ × β)) (k : κ) (d : β) : β :=
  match m with
  | [] => d
  | (k1, v) :: rest => if k = k1 then v else alGetD rest k d

/-- Optional lookup in an association list (Python `dict.get`). -/
def alFind [DecidableEq κ] (m : List (κ × β)) (k : κ) : Option β :=
  match m with
  | [] => none
  | (k1, v) :: rest => if k = k1 then some v else alFind rest k

/-- Key membership (Python `k in d`). -/
def alContains [DecidableEq κ] (m : List (κ × β)) (k : κ) : Bool :=
  match m with
  | [] => false
  | (k1, _) :: rest => k = k1 || alContains rest k

/-- Assignment `d[k] = v`: replaces the value in place (keeping the position of the key,
as Python dicts do) or appends a new entry. -/
def alUpdate [DecidableEq κ] (m : List (κ × β)) (k : κ) (v : β) : List (κ × β) :=
  match m with
  | [] => [(k, v)]
  | (k1, v1) :: rest => if k = k1 then (k, v) :: rest else (k1, v1) :: alUpdate rest k v

/-- Model of `d[k] += v` on a `defaultdict(float)`. -/
def alAdd [DecidableEq κ] (m : List (κ × ℚ)) (k : κ) (v : ℚ) : List (κ × ℚ) :=
  alUpdate m k (qadd (alGetD m k 0) v)

/-- Flat map over a list (kept local for version stability). -/
def flatMapL (f : α → List β) : List α → List β
  | [] => []
  | x :: xs => f x ++ flatMapL f xs

/-! ### The residual-graph solver (`MaxFlowSolver`)

`graph` is the residual graph `node -> (neighbor -> residual)`: an association
list of association lists mirroring the nested `defaultdict(float)`.  Inner
entries record every key ever created (back edges start at 0), as in Python.
`ocap` is `original_capacity`, `nodes` the insertion-ordered node set. -/

abbrev Graph := List (String × List (String × ℚ))

structure Solver where
  graph : Graph
  ocap : List ((String × String) × ℚ)
  nodes : List String
deriving DecidableEq

def emptySolver : Solver := ⟨[], [], []⟩

/-- Inner adjacency map of `u` (empty if `u` is not a key). -/
def graphGetD (g : Graph) (u : String) : List (String × ℚ) := alGetD g u []

/-- Residual value `graph[u][v]` with the `defaultdict` default 0. -/
def resid (g : Graph) (u v : String) : ℚ := alGetD (graphGetD g u) v 0

/-- Model of `graph[u][v] += d` (creating the entry at 0 first if absent). -/
def graphBump (g : Graph) (u v : String) (d : ℚ) : Graph :=
  alUpdate g u (alAdd (graphGetD g u) v d)

/-- Model of `MaxFlowSolver.add_edge`: accumulates parallel capacities, records the
cumulative capacity in `original_capacity`, registers both endpoints. -/
def addEdge (s : Solver) (u v : String) (c : ℚ) : Solver :=
  let g1 := graphBump s.graph u v c
  let g2 := if alContains g1 v then g1 else g1 ++ [(v, [])]
  { graph := g2
    ocap := alUpdate s.ocap (u, v) (resid g1 u v)
    nodes := addName (addName s.nodes u) v }

/-- Neighbor ordering used by the solver: ascending key, as
`sorted(self.graph[u].keys())`. -/
def nbrLe (a b : String × ℚ) : Bool := strLeB a.1 b.1

/-- One BFS step: scan the sorted neighbors of `u`, extending queue, visited
set and parent map; stops early (returning `true`) when the sink is found,
exactly as `MaxFlowSolver.bfs` does. -/
def scanNbrs (u sink : String) :
    List (String × ℚ) → List String → List String → List (String × String) →
    List String × List String × List (String × String) × Bool
  | [], q, vis, par => (q, vis, par, false)
  | (v, c) :: rest, q, vis, par =>
    if !(vis.contains v) && qlt eps9 c then
      let vis1 := vis ++ [v]
      let par1 := alUpdate par v u
      if v = sink then (q, vis1, par1, true)
      else scanNbrs u sink rest (q ++ [v]) vis1 par1
    else scanNbrs u sink rest q vis par

/-- The BFS work loop (fuelled; `none` = fuel exhausted, which never happens
with `bfsFuel`).  `some none` means no augmenting path exists. -/
def bfsLoop (g : Graph) (sink : String) :
    Nat → List String → List String → List (String × String) →
    Option (Option (List (String × String)))
  | 0, _, _, _ => none
  | _ + 1, [], _, _ => some none
  | fuel + 1, u :: rest, vis, par =>
    match scanNbrs u sink (sortLe nbrLe (graphGetD g u)) rest vis par with
    | (_, _, par1, true) => some (some par1)
    | (q1, vis1, par1, false) => bfsLoop g sink fuel q1 vis1 par1

/-- Total number of adjacency entries; every BFS visits at most one node per
entry plus the start node, so this bounds the queue work. -/
def totalEntries (g : Graph) : Nat := g.foldl (fun a p => a + p.2.length) 0

def bfsFuel (g : Graph) : Nat := totalEntries g + g.length + 2

/-- Model of `MaxFlowSolver.bfs`. -/
def bfs (g : Graph) (source sink : String) :
    Option (Option (List (String × String))) :=
  bfsLoop g sink (bfsFuel g) [source] [source] []

/-- Walk the parent map from `s` back to `source`, returning the list of
(parent, child) residual edges of the augmenting path, sink end first. -/
def pathPairs (par : List (String × String)) (source : String) :
    Nat → String → Option (List (String × String))
  | 0, _ => none
  | fuel + 1, s =>
    if s = source then some []
    else
      match alFind par s with
      | none => none
      | some p => (pathPairs par source fuel p).map (fun l => (p, s) :: l)

/-- Minimum residual along the path: Python folds `min` starting from `+inf`;
every extracted path has at least one edge, so starting from the first edge is
equivalent (the `[]` case is unreachable). -/
def minResid (g : Graph) : List (String × String) → ℚ
  | [] => 0
  | (u, v) :: rest => rest.foldl (fun m p => qmin m (resid g p.1 p.2)) (resid g u v)

/-- Augmentation: `graph[u][v] -= f; graph[v][u] += f` along the path. -/
def applyAugment (g : Graph) (pf : ℚ) : List (String × String) → Graph
  | [] => g
  | (u, v) :: rest => applyAugment (graphBump (graphBump g u v (qneg pf)) v u pf) pf rest

/-- Model of the `MaxFlowSolver.edmonds_karp` main loop (fuel bounds the number of
augmentations; `none` = fuel exhausted). -/
def ekLoop (source sink : String) : Nat → Graph → ℚ → Option (Graph × ℚ)
  | 0, _, _ => none
  | fuel + 1, g, acc =>
    match bfs g source sink with
    | none => none
    | some none => some (g, acc)
    | some (some par) =>
      match pathPairs par source (par.length + 2) sink with
      | none => none
      | some pairs =>
        let pf := minResid g pairs
        ekLoop source sink fuel (applyAugment g pf pairs) (qadd acc pf)

/-- Model of `MaxFlowSolver.edmonds_karp`: returns the terminal solver state and the
total flow. -/
def edmondsKarp (fuel : Nat) (s : Solver) (source sink : String) :
    Option (Solver × ℚ) :=
  (ekLoop source sink fuel s.graph 0).map (fun p => ({ s with graph := p.1 }, p.2))

/-- Neighbor collection step of `get_reachable_from_source`. -/
def collectNbrs : List (String × ℚ) → List String → List String →
    List String × List String
  | [], q, vis => (q, vis)
  | (v, c) :: rest, q, vis =>
    if !(vis.contains v) && qlt eps9 c then collectNbrs rest (q ++ [v]) (vis ++ [v])
    else collectNbrs rest q vis

/-- Work loop of `get_reachable_from_source` (fuelled like `bfsLoop`). -/
def reachLoop (g : Graph) : Nat → List String → List String → Option (List String)
  | 0, _, _ => none
  | _ + 1, [], vis => some (sortLe strLeB vis)
  | fuel + 1, u :: rest, vis =>
    match collectNbrs (sortLe nbrLe (graphGetD g u)) rest vis with
    | (q1, vis1) => reachLoop g fuel q1 vis1

/-- Model of `MaxFlowSolver.get_reachable_from_source`: sorted list of nodes reachable
through residuals `> 1e-9`. -/
def getReachable (s : Solver) (source : String) : Option (List String) :=
  reachLoop s.graph (bfsFuel s.graph) [source] [source]

/-! ### BELTS data model and `solve_belts` -/

/-- A request edge (`lo` defaults to 0 in the JSON and is stored explicitly
here). -/
structure Edge where
  from_ : String
  to_ : String
  lo : ℚ
  hi : ℚ
deriving DecidableEq

/-- A supply source entry. -/
structure SourceInfo where
  node : String
  supply : ℚ
deriving DecidableEq

/-- A parsed BELTS request. -/
structure BeltsData where
  edges : List Edge
  node_caps : List (String × ℚ)
  sources : List SourceInfo
  sink : String
deriving DecidableEq

/-- A `flows` entry of an ok response. -/
structure FlowEntry where
  from_ : String
  to_ : String
  flow : ℚ
deriving DecidableEq

/-- A `deficit.tight_edges` entry of an infeasible response. -/
structure TightEdge where
  from_ : String
  to_ : String
  flow_needed : ℚ
deriving DecidableEq

/-- The response record of `solve_belts`. -/
inductive BeltsResp where
  | ok (max_flow_per_min : ℚ) (flows : List FlowEntry)
  | infeasible (cut_reachable : List String) (demand_balance : ℚ)
      (tight_nodes : List String) (tight_edges : List TightEdge)
deriving DecidableEq

def dummySourceName : String := "__dummy_source__"
def dummySinkName : String := "__dummy_sink__"
def virtualSourceName : String := "__virtual_source__"

def sourceNodes (d : BeltsData) : List String := d.sources.map (·.node)

/-- The `all_nodes` set of the request: sink, edge endpoints, source nodes.
(Python iterates it in unordered set order; the order is only used to build
`split_nodes`, whose order is immaterial, so a sorted list is used here.) -/
def allNodes (d : BeltsData) : List String :=
  sortLe strLeB (dedupNames
    (d.sink :: (d.edges.map (·.from_) ++ d.edges.map (·.to_) ++ sourceNodes d)))

/-- Whether the node is split: has a cap and is neither the sink nor a source. -/
def isSplit (d : BeltsData) (n : String) : Bool :=
  alContains d.node_caps n && !(n = d.sink) && !((sourceNodes d).contains n)

def splitNodesList (d : BeltsData) : List String := (allNodes d).filter (isSplit d)

/-- Tail endpoint after splitting: `u_out` if `u` is split. -/
def uActual (d : BeltsData) (u : String) : String :=
  if isSplit d u then u ++ "_out" else u

/-- Head endpoint after splitting: `v_in` if `v` is split. -/
def vActual (d : BeltsData) (v : String) : String :=
  if isSplit d v then v ++ "_in" else v

/-- The reduced edges `(u_actual, v_actual, hi - lo)` in request order. -/
def transformedEdges (d : BeltsData) : List (String × String × ℚ) :=
  d.edges.map (fun e => (uActual d e.from_, vActual d e.to_, qsub e.hi e.lo))

/-- The per-reduced-edge reconstruction record stored in `edge_mapping`. -/
structure EdgeInfo where
  original_from : String
  original_to : String
  lo : ℚ
  hi : ℚ
  transformed_capacity : ℚ
deriving DecidableEq

/-- Model of `edge_mapping`: keyed by the reduced endpoints; a later edge with the same
reduced endpoints overwrites the stored record (Python dict assignment), while
keeping the key position. -/
def edgeMapping (d : BeltsData) : List ((String × String) × EdgeInfo) :=
  d.edges.foldl
    (fun m e => alUpdate m (uActual d e.from_, vActual d e.to_)
      ⟨e.from_, e.to_, e.lo, e.hi, qsub e.hi e.lo⟩) []

/-- The `imbalance` defaultdict: `+lo` at the head, `-lo` at the tail of each
reduced edge, in request order. -/
def imbalanceList (d : BeltsData) : List (String × ℚ) :=
  d.edges.foldl
    (fun m e => alAdd (alAdd m (vActual d e.to_) e.lo) (uActual d e.from_) (qneg e.lo)) []

/-- The split-capacity edges `n_in -> n_out` with capacity `cap(n)`. -/
def splitEdgesList (d : BeltsData) : List (String × String × ℚ) :=
  (splitNodesList d).map (fun n => (n ++ "_in", n ++ "_out", alGetD d.node_caps n 0))

/-- The solver loaded with all transformed plus split edges (this is how both
`solver_feasibility` and `solver2` start). -/
def baseSolver (d : BeltsData) : Solver :=
  (transformedEdges d ++ splitEdgesList d).foldl
    (fun s e => addEdge s e.1 e.2.1 e.2.2) emptySolver

/-- Model of `internal_imbalance`: imbalances of nodes that are neither a source node
nor the sink. -/
def internalImbalance (d : BeltsData) : List (String × ℚ) :=
  (imbalanceList d).filter (fun p => !((sourceNodes d).contains p.1) && !(p.1 = d.sink))

/-- Whether any internal imbalance exceeds `1e-9` in absolute value. -/
def hasInternalImbalance (d : BeltsData) : Bool :=
  (internalImbalance d).any (fun p => qlt eps9 (qabs p.2))

def sortedInternalKeys (d : BeltsData) : List String :=
  sortLe strLeB ((internalImbalance d).map (·.1))

/-- Dummy circulation edges, one per internally imbalanced node, in sorted
node order. -/
def dummyEdges (d : BeltsData) : List (String × String × ℚ) :=
  (sortedInternalKeys d).filterMap (fun n =>
    let imb := alGetD (internalImbalance d) n 0
    if qlt eps9 imb then some (dummySourceName, n, imb)
    else if qlt imb (qneg eps9) then some (n, dummySinkName, qneg imb)
    else none)

/-- Model of `total_dummy_demand`: the sum of the positive internal imbalances,
accumulated in the same sorted loop. -/
def totalDummyDemand (d : BeltsData) : ℚ :=
  (sortedInternalKeys d).foldl
    (fun a n =>
      let imb := alGetD (internalImbalance d) n 0
      if qlt eps9 imb then qadd a imb else a) 0

/-- Model of `solver_feasibility`: the base solver plus the dummy circulation edges. -/
def feasSolver (d : BeltsData) : Solver :=
  (dummyEdges d).foldl (fun s e => addEdge s e.1 e.2.1 e.2.2) (baseSolver d)

/-- Step 1 of `solve_belts` (lower-bound circulation check).  `some (some r)`
means the request was rejected with response `r`; `some none` means the check
passed (or was skipped); `none` means the fuel ran out. -/
def step1Result (fuel : Nat) (d : BeltsData) : Option (Option BeltsResp) :=
  if hasInternalImbalance d then
    match edmondsKarp fuel (feasSolver d) dummySourceName dummySinkName with
    | none => none
    | some (sf, circ) =>
      if qlt eps6 (qabs (qsub circ (totalDummyDemand d))) then
        match getReachable sf dummySourceName with
        | none => none
        | some reach =>
          some (some (BeltsResp.infeasible
            (reach.filter (fun n => !(n = dummySourceName) && !(n = dummySinkName)))
            (round2 (qsub (totalDummyDemand d) circ)) [] []))
      else some none
  else some none

/-- Sum of the `lo` bounds of the request edges leaving `n`. -/
def sumLoFrom (d : BeltsData) (n : String) : ℚ :=
  d.edges.foldl (fun a e => if e.from_ = n then qadd a e.lo else a) 0

/-- Model of `adjusted_supply`: per source node, `supply - sum of outgoing lo`. -/
def adjustedSupplyList (d : BeltsData) : List (String × ℚ) :=
  d.sources.foldl (fun m s => alUpdate m s.node (qsub s.supply (sumLoFrom d s.node))) []

def totalAdjustedSupply (d : BeltsData) : ℚ :=
  (adjustedSupplyList d).foldl (fun a p => qadd a p.2) 0

/-- Model of `solver2`: the base solver plus the super-source edges. -/
def mainSolver (d : BeltsData) : Solver :=
  d.sources.foldl
    (fun s si => addEdge s virtualSourceName si.node (alGetD (adjustedSupplyList d) si.node 0))
    (baseSolver d)

/-- The main Edmonds-Karp run (terminal solver state and flow value). -/
def mainFlowResult (fuel : Nat) (d : BeltsData) : Option (Solver × ℚ) :=
  edmondsKarp fuel (mainSolver d) virtualSourceName d.sink

/-- The max-flow value returned by the main Edmonds-Karp run. -/
def mainFlowValue (fuel : Nat) (d : BeltsData) : Option ℚ :=
  (mainFlowResult fuel d).map (·.2)

/-- Model of the `tight_nodes` collection: scans the reachable list for names that are
`node_caps` keys and whose `n_in -> n_out` residual entry exists and is
saturated.  (The reachable list contains reduced-network names, so for a split
node the original name is never found there; see claim C6.) -/
def tightNodesList (d : BeltsData) (s : Solver) (reach : List String) : List String :=
  reach.filterMap (fun n =>
    if alContains d.node_caps n then
      let inNode := n ++ "_in"
      let outNode := if isSplit d n then n ++ "_out" else n
      if alContains s.graph inNode && alContains (graphGetD s.graph inNode) outNode
          && qlt (resid s.graph inNode outNode) eps9 then some n
      else none
    else none)

/-- Python `u == u_orig or u == split_nodes.get(u_orig)` (where `get` yields
`None` for unsplit nodes, never equal to a string). -/
def matchesOrigFrom (d : BeltsData) (u : String) (e : Edge) : Bool :=
  u = e.from_ || (isSplit d e.from_ && u = e.from_ ++ "_out")

/-- Python `v == v_orig or v == f"{v_orig}_in"`. -/
def matchesOrigTo (v : String) (e : Edge) : Bool :=
  v = e.to_ || v = e.to_ ++ "_in"

/-- Model of the `tight_edges` collection.  Python iterates `solver2.nodes` (a `set`) in
unspecified hash order; the order only affects which two entries survive the
`[:2]` truncation, and no claim below depends on it, so the sorted order is
used here. -/
def tightEdgesList (d : BeltsData) (s : Solver) (reach : List String) : List TightEdge :=
  flatMapL (fun u =>
      flatMapL (fun v =>
          if !(reach.contains v) && alContains s.ocap (u, v)
              && qlt (resid s.graph u v) eps9 then
            d.edges.filterMap (fun e =>
              if matchesOrigFrom d u e && matchesOrigTo v e then
                some ⟨e.from_, e.to_, round2 (alGetD s.ocap (u, v) 0)⟩
              else none)
          else [])
        (sortLe strLeB s.nodes))
    (reach.filter (fun u => !(u = virtualSourceName)))

/-- Ordering of the emitted flows: lexicographic by `(from, to)`. -/
def flowLe (a b : FlowEntry) : Bool :=
  if a.from_ = b.from_ then strLeB a.to_ b.to_ else strLtB a.from_ b.from_

/-- Step 4 flow reconstruction: for each `edge_mapping` entry, flow =
`transformed_capacity - residual + lo`; entries above `1e-9` are emitted
rounded, sorted by `(from, to)`. -/
def reconFlows (d : BeltsData) (g : Graph) : List FlowEntry :=
  sortLe flowLe ((edgeMapping d).filterMap (fun p =>
    let residual := resid g p.1.1 p.1.2
    let actual := qadd (qsub p.2.transformed_capacity residual) p.2.lo
    if qlt eps9 actual then some ⟨p.2.original_from, p.2.original_to, round2 actual⟩
    else none))

/-- Sum of the emitted flow values into `sink`. -/
def sumFlowsInto (flows : List FlowEntry) (sink : String) : ℚ :=
  flows.foldl (fun a f => if f.to_ = sink then qadd a f.flow else a) 0

/-- Model of `solve_belts`: the fuel bounds the number of Edmonds-Karp augmentations
(`none` = fuel exhausted; any sufficient fuel yields the Python result). -/
def solve_belts (fuel : Nat) (d : BeltsData) : Option BeltsResp :=
  match step1Result fuel d with
  | none => none
  | some (some resp) => some resp
  | some none =>
    match mainFlowResult fuel d with
    | none => none
    | some (s2, mf) =>
      if qlt eps6 (qabs (qsub mf (totalAdjustedSupply d))) then
        match getReachable s2 virtualSourceName with
        | none => none
        | some reach =>
          some (BeltsResp.infeasible
            (reach.filter (fun n => !(n = virtualSourceName)))
            (round2 (qsub (totalAdjustedSupply d) mf))
            ((tightNodesList d s2 reach).take 2)
            ((tightEdgesList d s2 reach).take 2))
      else
        let flows := reconFlows d s2.graph
        some (BeltsResp.ok (round2 (sumFlowsInto flows d.sink)) flows)

/-! ### FACTORY data model and the LP of `solve_factory_simplex` -/

structure MachineDef where
  crafts_per_min : ℚ
deriving DecidableEq

/-- Module effects; Python reads `speed`/`prod` with `get(..., 0)`, so a
missing key is the same as 0. -/
structure ModuleEff where
  speed : ℚ
  prod : ℚ
deriving DecidableEq

/-- A recipe; `inputs`/`outputs` model the `in`/`out` maps. -/
structure Recipe where
  machine : String
  time_s : ℚ
  inputs : List (String × ℚ)
  outputs : List (String × ℚ)
deriving DecidableEq

/-- A parsed FACTORY request.  `max_machines` entries model the keys of
`limits.max_machines` (Python treats a missing key as `+inf`, i.e. no
constraint). -/
structure FactoryData where
  machines : List (String × MachineDef)
  recipes : List (String × Recipe)
  modules : List (String × ModuleEff)
  raw_supply_per_min : List (String × ℚ)
  max_machines : List (String × ℚ)
  target_item : String
  target_rate : ℚ
deriving DecidableEq

/-- Model of module lookup with per-field default 0. -/
def moduleOf (d : FactoryData) (m : String) : ModuleEff := alGetD d.modules m ⟨0, 0⟩

/-- A recipe name is always a key of `recipes` where this is used; the default
only makes the lookup total. -/
def recipeOf (d : FactoryData) (rn : String) : Recipe := alGetD d.recipes rn ⟨"", qi 1, [], []⟩

/-- Model of `get_eff_crafts_per_min`: `(base_speed * (1 + speed) * 60) / time_s`.
(A machine name missing from `machines` raises `KeyError` in Python; the
default 0 here is never exercised.) -/
def getEffCrafts (d : FactoryData) (r : Recipe) : ℚ :=
  qdiv (qmul (qmul (alGetD d.machines r.machine ⟨0⟩).crafts_per_min
      (qadd (qi 1) (moduleOf d r.machine).speed)) (qi 60)) r.time_s

/-- Model of `get_prod_mult`: `1 + prod`. -/
def getProdMult (d : FactoryData) (r : Recipe) : ℚ :=
  qadd (qi 1) (moduleOf d r.machine).prod

def recipeNames (d : FactoryData) : List String := d.recipes.map (·.1)

def sortedRecipeNames (d : FactoryData) : List String := sortLe strLeB (recipeNames d)

/-- All items mentioned in any `in`/`out` map (a Python set; order immaterial,
always sorted before use). -/
def allItems (d : FactoryData) : List String :=
  dedupNames (flatMapL (fun p => p.2.inputs.map (·.1) ++ p.2.outputs.map (·.1)) d.recipes)

def producedItems (d : FactoryData) : List String :=
  dedupNames (flatMapL (fun p => p.2.outputs.map (·.1)) d.recipes)

def consumedItems (d : FactoryData) : List String :=
  dedupNames (flatMapL (fun p => p.2.inputs.map (·.1)) d.recipes)

/-- Model of `raw_items`: items that no recipe produces. -/
def rawItems (d : FactoryData) : List String :=
  (allItems d).filter (fun i => !((producedItems d).contains i))

/-- Model of `byproduct_items`: produced, never consumed, not the target. -/
def byproductItems (d : FactoryData) : List String :=
  (producedItems d).filter (fun i => !((consumedItems d).contains i) && !(i = d.target_item))

/-- Model of `intermediate_items`: produced and consumed, not the target. -/
def intermediateItems (d : FactoryData) : List String :=
  (producedItems d).filter (fun i => (consumedItems d).contains i && !(i = d.target_item))

/-- Relation of a linear constraint. -/
inductive Rel where
  | le
  | eqc
  | ge
deriving DecidableEq

/-- A linear constraint over the recipe activity variables, as added to the
PuLP problem: `sum coeffs · x rel rhs`. -/
structure Constraint where
  name : String
  coeffs : List (String × ℚ)
  rel : Rel
  rhs : ℚ
deriving DecidableEq

/-- Coefficients of `net_production` of an item: per recipe (in sorted order),
`out_qty * prod_mult - in_qty`. -/
def netCoeffs (d : FactoryData) (i : String) : List (String × ℚ) :=
  (sortedRecipeNames d).map (fun rn =>
    let r := recipeOf d rn
    let produced := match alFind r.outputs i with
      | some oq => qmul oq (getProdMult d r)
      | none => 0
    let consumed := match alFind r.inputs i with
      | some iq => iq
      | none => 0
    (rn, qsub produced consumed))

def negCoeffs (cs : List (String × ℚ)) : List (String × ℚ) :=
  cs.map (fun p => (p.1, qneg p.2))

/-- The per-item conservation constraints of `try_solve_lp`, in sorted item
order: target equality, intermediate balance, byproduct `>= 0`, and for raw
items `net <= 0` plus — only when the item has a `raw_supply_per_min` entry —
`-net <= supply`. -/
def itemConstraints (d : FactoryData) (rate : ℚ) : List Constraint :=
  flatMapL (fun i =>
      let net := netCoeffs d i
      if i = d.target_item then [⟨"Target_" ++ i, net, Rel.eqc, rate⟩]
      else if (intermediateItems d).contains i then [⟨"Balance_" ++ i, net, Rel.eqc, 0⟩]
      else if (byproductItems d).contains i then [⟨"Byproduct_" ++ i, net, Rel.ge, 0⟩]
      else if (rawItems d).contains i then
        ⟨"Raw_No_Production_" ++ i, net, Rel.le, 0⟩ ::
        (match alFind d.raw_supply_per_min i with
         | some sup => [⟨"Raw_Supply_" ++ i, negCoeffs net, Rel.le, sup⟩]
         | none => [])
      else [])
    (sortLe strLeB (allItems d))

/-- The machine-capacity constraints: for each machine class with at least one
recipe and a `max_machines` entry, `sum x_r / eff(r) <= cap`. -/
def machineConstraints (d : FactoryData) : List Constraint :=
  (sortLe strLeB (d.machines.map (·.1))).filterMap (fun m =>
    let usage := (sortedRecipeNames d).filterMap (fun rn =>
      let r := recipeOf d rn
      if r.machine = m then some (rn, qinv (getEffCrafts d r)) else none)
    if usage.isEmpty then none
    else
      match alFind d.max_machines m with
      | some cap => some ⟨"Machine_Cap_" ++ m, usage, Rel.le, cap⟩
      | none => none)

/-- All constraints of the LP built by `try_solve_lp` for a target rate. -/
def lpConstraints (d : FactoryData) (rate : ℚ) : List Constraint :=
  itemConstraints d rate ++ machineConstraints d

/-- Value of a linear expression at an activity assignment. -/
def evalLin (coeffs : List (String × ℚ)) (x : String → ℚ) : ℚ :=
  coeffs.foldl (fun a p => qadd a (qmul p.2 (x p.1))) 0

/-- Whether an assignment satisfies a constraint. -/
def satC (x : String → ℚ) (c : Constraint) : Bool :=
  match c.rel with
  | Rel.le => !(qlt c.rhs (evalLin c.coeffs x))
  | Rel.eqc => decide (evalLin c.coeffs x = c.rhs)
  | Rel.ge => !(qlt (evalLin c.coeffs x) c.rhs)

/-- Result extraction of `try_solve_lp` (lines 360-368): from the backend
variable values, emit `crafts_value * prod_mult` for every recipe whose value
is present and exceeds `1e-9`, in sorted recipe order. -/
def perRecipeCrafts (d : FactoryData) (vals : String → Option ℚ) : List (String × ℚ) :=
  (sortedRecipeNames d).filterMap (fun rn =>
    match vals rn with
    | some v =>
      if qlt eps9 v then some (rn, qmul v (getProdMult d (recipeOf d rn))) else none
    | none => none)

/-- The machine-cap hint strings, in sorted machine order. -/
def machineHints (d : FactoryData) : List String :=
  (sortLe strLeB (d.machines.map (·.1))).map (fun m => m ++ " cap")

/-- The raw-supply hint strings: sorted raw items that have a supply entry. -/
def rawSupplyHints (d : FactoryData) : List String :=
  (sortLe strLeB (rawItems d)).filterMap (fun i =>
    if alContains d.raw_supply_per_min i then some (i ++ " supply") else none)

/-- Model of the `bottleneck_hint` construction of `solve_factory_simplex` (lines 454-467),
as a function of the binary-searched `max_feasible` value: below 95% of the
request the machine hints are listed before the raw-supply hints and the first
two are kept; otherwise (or when there is no hint at all) `["unknown"]`. -/
def bottleneckHint (d : FactoryData) (maxFeasible : ℚ) : List String :=
  let hints :=
    if qlt maxFeasible (qmul d.target_rate (mkRat 95 100)) then
      machineHints d ++ rawSupplyHints d
    else []
  if hints.isEmpty then ["unknown"] else hints.take 2

/-! ### Concrete instances used in the theorems below -/

/-- Source `s` (supply 1), path `s -> v -> u -> t`, and an extra edge
`u -> v` with lower bound 2 (upper bound 5). -/
def exC1 : BeltsData :=
  ⟨[⟨"s", "v", qi 0, qi 10⟩, ⟨"v", "u", qi 0, qi 10⟩, ⟨"u", "t", qi 0, qi 10⟩,
    ⟨"u", "v", qi 2, qi 5⟩], [], [⟨"s", qi 1⟩], "t"⟩

/-- Sink `t` with a lower-bound cycle `t -> w -> t` (lo 5 each) plus a plain
supply edge `s -> t`. -/
def exC2 : BeltsData :=
  ⟨[⟨"t", "w", qi 5, qi 10⟩, ⟨"w", "t", qi 5, qi 10⟩, ⟨"s", "t", qi 0, qi 10⟩],
   [], [⟨"s", qi 3⟩], "t"⟩

/-- Two parallel duplicate edges `s -> t` of capacity 10 each, supply 20. -/
def exC3 : BeltsData :=
  ⟨[⟨"s", "t", qi 0, qi 10⟩, ⟨"s", "t", qi 0, qi 10⟩], [], [⟨"s", qi 20⟩], "t"⟩

/-- Scenario S2 of the specification: `s1 -> a -> sink`, cap `a = 300`,
supply `s1 = 500`. -/
def exS2 : BeltsData :=
  ⟨[⟨"s1", "a", qi 0, qi 1000⟩, ⟨"a", "sink", qi 0, qi 1000⟩],
   [("a", qi 300)], [⟨"s1", qi 500⟩], "sink"⟩

/-- An edge `a -> b` with lower bound 5 whose head `b` has no outlet: the
step-1 circulation check fails. -/
def exC10 : BeltsData :=
  ⟨[⟨"a", "b", qi 5, qi 10⟩, ⟨"s", "t", qi 0, qi 10⟩], [], [⟨"s", qi 1⟩], "t"⟩

/-- Scenario S1 of the specification: one edge `s1 -> sink`, supply 500. -/
def exS1 : BeltsData :=
  ⟨[⟨"s1", "sink", qi 0, qi 1000⟩], [], [⟨"s1", qi 500⟩], "sink"⟩

/-- One recipe turning raw `ore` into target `plate`; `raw_supply_per_min` has
no entry for `ore`. -/
def exC4 : FactoryData :=
  ⟨[("M", ⟨qi 60⟩)], [("rec", ⟨"M", qi 1, [("ore", qi 1)], [("plate", qi 1)]⟩)],
   [], [], [], "plate", qi 10⟩

/-- The assignment running `rec` 10 times per minute. -/
def asgC4 : String → ℚ := fun rn => if rn = "rec" then qi 10 else 0

/-- Like `exC4` but with a productivity module of 1/2 on machine `M`. -/
def exC7 : FactoryData :=
  ⟨[("M", ⟨qi 60⟩)], [("rec", ⟨"M", qi 1, [("ore", qi 1)], [("plate", qi 1)]⟩)],
   [("M", ⟨qi 0, mkRat 1 2⟩)], [("ore", qi 1000)], [], "plate", qi 66⟩

/-- A backend solution assigning activity 4 to `rec`. -/
def valsC7 : String → Option ℚ := fun rn => if rn = "rec" then some (qi 4) else none

/-- Machine class `z`, raw item `a` with a supply entry: the machine hint
`"z cap"` sorts after the raw hint `"a supply"`. -/
def exC8 : FactoryData :=
  ⟨[("z", ⟨qi 1⟩)], [("r1", ⟨"z", qi 1, [("a", qi 1)], [("p", qi 1)]⟩)],
   [], [("a", qi 5)], [], "p", qi 100⟩

/-- The `(from, to)` pairs of the request edges. -/
def edgePairs (d : BeltsData) : List (String × String) :=
  d.edges.map (fun e => (e.from_, e.to_))

/-- The identifiers of a response other than `cut_reachable` refer to original
request names: flow entries and tight edges carry request-edge endpoint pairs,
and tight nodes are `node_caps` keys. -/
def respUsesOriginalIds (d : BeltsData) : BeltsResp → Prop
  | BeltsResp.ok _ flows => ∀ f ∈ flows, (f.from_, f.to_) ∈ edgePairs d
  | BeltsResp.infeasible _ _ tn te =>
      (∀ n ∈ tn, alContains d.node_caps n = true) ∧
      (∀ e ∈ te, (e.from_, e.to_) ∈ edgePairs d)

/-! ### Helper lemmas -/

theorem mem_insertLe {le : α → α → Bool} {x a : α} {l : List α} :
    a ∈ insertLe le x l ↔ a = x ∨ a ∈ l := by
  induction l with
  | nil => simp [insertLe]
  | cons y ys ih =>
    simp only [insertLe]
    split
    · simp
    · simp only [List.mem_cons, ih]
      tauto

theorem mem_sortLe {le : α → α → Bool} {a : α} {l : List α} :
    a ∈ sortLe le l ↔ a ∈ l := by
  induction l with
  | nil => simp [sortLe]
  | cons x xs ih => simp [sortLe, mem_insertLe, ih]

theorem mem_alUpdate {κ β : Type} [DecidableEq κ] {m : List (κ × β)} {k : κ} {v : β}
    {p : κ × β} (hp : p ∈ alUpdate m k v) : p ∈ m ∨ p = (k, v) := by
  induction m with
  | nil => simp only [alUpdate, List.mem_singleton] at hp; exact Or.inr hp
  | cons q rest ih =>
    obtain ⟨k1, v1⟩ := q
    simp only [alUpdate] at hp
    split at hp
    · rcases List.mem_cons.mp hp with h1 | h1
      · exact Or.inr h1
      · exact Or.inl (List.mem_cons_of_mem _ h1)
    · rcases List.mem_cons.mp hp with h1 | h1
      · exact Or.inl (h1 ▸ List.mem_cons_self _ _)
      · rcases ih h1 with h2 | h2
        · exact Or.inl (List.mem_cons_of_mem _ h2)
        · exact Or.inr h2

theorem mem_foldl_alUpdate {κ β : Type} [DecidableEq κ] (key : α → κ) (val : α → β) :
    ∀ (l : List α) (m : List (κ × β)) (p : κ × β),
      p ∈ l.foldl (fun m e => alUpdate m (key e) (val e)) m →
      p ∈ m ∨ ∃ e ∈ l, p = (key e, val e) := by
  intro l
  induction l with
  | nil => intro m p hp; exact Or.inl hp
  | cons e es ih =>
    intro m p hp
    rcases ih (alUpdate m (key e) (val e)) p hp with h1 | h1
    · rcases mem_alUpdate h1 with h2 | h2
      · exact Or.inl h2
      · exact Or.inr ⟨e, List.mem_cons_self _ _, h2⟩
    · obtain ⟨e1, he1, hpe⟩ := h1
      exact Or.inr ⟨e1, List.mem_cons_of_mem _ he1, hpe⟩

theorem edgeMapping_mem {d : BeltsData} {p : (String × String) × EdgeInfo}
    (hp : p ∈ edgeMapping d) :
    ∃ e ∈ d.edges, p.2 = EdgeInfo.mk e.from_ e.to_ e.lo e.hi (qsub e.hi e.lo) := by
  rcases mem_foldl_alUpdate
      (fun e : Edge => (uActual d e.from_, vActual d e.to_))
      (fun e : Edge => EdgeInfo.mk e.from_ e.to_ e.lo e.hi (qsub e.hi e.lo))
      d.edges [] p hp with h1 | h1
  · cases h1
  · obtain ⟨e, he, rfl⟩ := h1
    exact ⟨e, he, rfl⟩

theorem mem_flatMapL {f : α → List β} {b : β} : ∀ {l : List α},
    b ∈ flatMapL f l ↔ ∃ a ∈ l, b ∈ f a := by
  intro l
  induction l with
  | nil => simp [flatMapL]
  | cons x xs ih => simp [flatMapL, ih]

/-- Any response produced by the step-1 circulation gate is infeasible with
empty `tight_nodes` and `tight_edges`. -/
theorem step1Result_shape {fuel : Nat} {d : BeltsData} {r : BeltsResp}
    (h : step1Result fuel d = some (some r)) :
    ∃ cut bal, r = BeltsResp.infeasible cut bal [] [] := by
  unfold step1Result at h
  split at h
  · split at h
    · exact absurd h (by simp)
    · split at h
      · split at h
        · exact absurd h (by simp)
        · simp only [Option.some.injEq] at h
          exact ⟨_, _, h.symm⟩
      · exact absurd h (by simp)
  · exact absurd h (by simp)

/-! ### Claim theorems -/

/-- Claim C1: for every ok BELTS response each emitted flow `(u,v,f)` was
claimed to satisfy `lo(u,v) <= f <= hi(u,v)` within `1e-6`.  The code violates
this: on `exC1` it answers ok and emits the entry `(u, v, 1)` although the
request edge `u -> v` has lower bound 2, a violation of `lo <= f` by 1 (far
beyond the tolerance).  The run is reproduced exactly below. -/
theorem c1_flow_below_lower_bound :
    solve_belts 20 exC1 = some (BeltsResp.ok (qi 1)
      [⟨"s", "v", qi 1⟩, ⟨"u", "t", qi 1⟩, ⟨"u", "v", qi 1⟩, ⟨"v", "u", qi 1⟩]) ∧
    ((⟨"u", "v", qi 2, qi 5⟩ : Edge) ∈ exC1.edges) ∧
    qlt (qi 1) (qsub (qi 2) eps6) = true := by decide

/-- Claim C2: in an ok BELTS response the sink was claimed to have no emitted
outgoing flow.  The code violates this: on `exC2` (sink `t`) it answers ok and
the flows contain the entry `(t, w, 5)` leaving the sink (the reconstruction
re-emits the lower bound of the request edge `t -> w`), and `5` exceeds the
`1e-6` tolerance.  The repository validator `verify_belts.py` flags exactly
this ("Sink has outgoing flow"). -/
theorem c2_sink_outflow_emitted :
    solve_belts 20 exC2 = some (BeltsResp.ok (qi 8)
      [⟨"s", "t", qi 3⟩, ⟨"t", "w", qi 5⟩, ⟨"w", "t", qi 5⟩]) ∧
    exC2.sink = "t" ∧
    qlt eps6 (qi 5) = true := by decide

/-- Claim C3: for parallel duplicate request edges the single emitted entry
was claimed to carry the sum of the flows of the merged duplicates.  The code
violates this: on `exC3` (two copies of `s -> t` with capacity 10 each, supply
20) the main max-flow routes 20 through the merged reduced edge, yet the
reconstruction uses only the `hi - lo` of the last duplicate and emits `(s, t, 10)`,
dropping half the routed flow. -/
theorem c3_merged_duplicates_not_summed :
    solve_belts 20 exC3 = some (BeltsResp.ok (qi 10) [⟨"s", "t", qi 10⟩]) ∧
    mainFlowValue 20 exC3 = some (qi 20) ∧
    ¬ (qi 10 = qi 20) := by decide

/-- Claim C4: a raw item without a `raw_supply_per_min` entry was claimed to
get the constraint `-net <= 0`, making it unusable.  The code violates this:
for `exC4` (raw item `ore`, empty supply map) the LP contains only the
constraints `Raw_No_Production_ore` and `Target_plate` — no supply constraint
at all — and the assignment running `rec` 10 times per minute satisfies every
generated constraint while consuming 10 `ore` per minute (`net(ore) = -10`). -/
theorem c4_missing_supply_unconstrained :
    (lpConstraints exC4 (qi 10)).map Constraint.name =
      ["Raw_No_Production_ore", "Target_plate"] ∧
    (lpConstraints exC4 (qi 10)).all (satC asgC4) = true ∧
    evalLin (netCoeffs exC4 ("ore")) asgC4 = qneg (qi 10) := by decide

/-- Claim C5 (counterexample): every identifier in a response was claimed to
be an original request node, but on scenario S2 the `cut_reachable` field of the infeasible
response is `["a_in", "s1"]`, and `a_in` is a virtual split-node name,
not one of the nodes of the request (`allNodes exS2 = [a, s1, sink]`). -/
theorem c5_cut_contains_split_name :
    solve_belts 20 exS2 = some (BeltsResp.infeasible ["a_in", "s1"] (qi 200) [] []) ∧
    ¬ (("a_in" : String) ∈ allNodes exS2) := by decide

/-- Claim C5 (amended): flow entries and `tight_edges` carry original request
edge endpoints and `tight_nodes` carries `node_caps` keys; only
`cut_reachable` may contain reduced-network (split) names. -/
theorem c5_original_ids_amended (fuel : Nat) (d : BeltsData) (r : BeltsResp)
    (h : solve_belts fuel d = some r) : respUsesOriginalIds d r := by
  unfold solve_belts at h
  split at h
  · exact absurd h (by simp)
  · rename_i heq
    obtain ⟨cut, bal, rfl⟩ := step1Result_shape heq
    obtain rfl := Option.some.inj h
    simp [respUsesOriginalIds]
  · split at h
    · exact absurd h (by simp)
    · split at h
      · split at h
        · exact absurd h (by simp)
        · obtain rfl := Option.some.inj h
          constructor
          · intro n hn
            have hn1 := List.mem_of_mem_take hn
            simp only [tightNodesList] at hn1
            obtain ⟨a, _, hfa⟩ := List.mem_filterMap.mp hn1
            split at hfa
            · rename_i hcaps
              split at hfa
              · split at hfa
                · obtain rfl := Option.some.inj hfa
                  exact hcaps
                · exact absurd hfa (by simp)
              · split at hfa
                · obtain rfl := Option.some.inj hfa
                  exact hcaps
                · exact absurd hfa (by simp)
            · exact absurd hfa (by simp)
          · intro e he
            have he1 := List.mem_of_mem_take he
            simp only [tightEdgesList] at he1
            obtain ⟨u, _, he2⟩ := mem_flatMapL.mp he1
            obtain ⟨v, _, he3⟩ := mem_flatMapL.mp he2
            split at he3
            · obtain ⟨e0, he0, hfe⟩ := List.mem_filterMap.mp he3
              split at hfe
              · obtain rfl := Option.some.inj hfe
                exact List.mem_map.mpr ⟨e0, he0, rfl⟩
              · exact absurd hfe (by simp)
            · exact absurd he3 (by simp)
      · obtain rfl := Option.some.inj h
        intro f hf
        simp only [reconFlows] at hf
        obtain ⟨p, hp, hfp⟩ := List.mem_filterMap.mp (mem_sortLe.mp hf)
        split at hfp
        · obtain rfl := Option.some.inj hfp
          obtain ⟨e, he, hinfo⟩ := edgeMapping_mem hp
          rw [hinfo]
          exact List.mem_map.mpr ⟨e, he, rfl⟩
        · exact absurd hfp (by simp)

/-- Claim C5 amended, witnessed at scenario S1. -/
theorem c5_original_ids_witness :
    respUsesOriginalIds exS1 (BeltsResp.ok (qi 500) [⟨"s1", "sink", qi 500⟩]) :=
  c5_original_ids_amended 20 exS1
    (BeltsResp.ok (qi 500) [⟨"s1", "sink", qi 500⟩]) (by decide)

/-- Claim C6: on scenario S2 (`s1 -> a -> sink`, cap `a = 300`, supply 500)
`deficit.tight_nodes` was claimed to include the saturated capped node `a`.
The code violates this: the `tight_nodes` field of the response is empty, because the
code scans the reachable set — which holds the split names `a_in`/`s1`, never
the original name `a` — for `node_caps` keys. -/
theorem c6_tight_nodes_empty_s2 :
    solve_belts 20 exS2 = some (BeltsResp.infeasible ["a_in", "s1"] (qi 200) [] []) ∧
    (("a", qi 300) ∈ exS2.node_caps) := by decide

/-- Claim C7: `per_recipe_crafts_per_min` maps exactly the recipes whose
backend activity exceeds `1e-9` to `activity * prod_mult` (the item output
rate), for any values returned by the LP backend. -/
theorem c7_per_recipe_output_rate (d : FactoryData) (vals : String → Option ℚ) :
    (∀ rn v, vals rn = some v → qlt eps9 v = true → rn ∈ recipeNames d →
      (rn, qmul v (getProdMult d (recipeOf d rn))) ∈ perRecipeCrafts d vals) ∧
    (∀ p ∈ perRecipeCrafts d vals,
      p.1 ∈ recipeNames d ∧ ∃ v, vals p.1 = some v ∧ qlt eps9 v = true ∧
        p.2 = qmul v (getProdMult d (recipeOf d p.1))) := by
  constructor
  · intro rn v h1 h2 h3
    apply List.mem_filterMap.mpr
    refine ⟨rn, mem_sortLe.mpr h3, ?_⟩
    simp [h1, h2]
  · intro p hp
    obtain ⟨rn, hrn, hf⟩ := List.mem_filterMap.mp hp
    split at hf
    · rename_i v hv
      split at hf
      · rename_i hq
        obtain rfl := Option.some.inj hf
        exact ⟨mem_sortLe.mp hrn, v, hv, hq, rfl⟩
      · exact absurd hf (by simp)
    · exact absurd hf (by simp)

/-- Claim C7, witnessed: with a productivity of 1/2 on `M` and backend value 4
for `rec`, the emitted entry is `("rec", 6)`. -/
theorem c7_per_recipe_witness :
    (("rec", qi 6) : String × ℚ) ∈ perRecipeCrafts exC7 valsC7 :=
  ((c7_per_recipe_output_rate exC7 valsC7).1) ("rec") (qi 4) rfl (by decide) (by decide)

/-- Claim C8 (counterexample): the hint list was claimed to be in sorted
order, but on `exC8` (machine `z`, supplied raw item `a`) with binary-search
result 0 the code emits `["z cap", "a supply"]` — machine hints first — and
`"a supply" < "z cap"`, so the list is not sorted. -/
theorem c8_hint_not_sorted :
    bottleneckHint exC8 0 = ["z cap", "a supply"] ∧
    strLtB ("a supply") ("z cap") = true := by decide

/-- Claim C8 (amended): when the achievable target reaches 95% of the request
the hint is `["unknown"]`; below that, the hint is the first two entries of
the machine-cap hints (sorted by machine) followed by the raw-supply hints
(sorted by item) — `["unknown"]` when there are no hints at all. -/
theorem c8_hint_amended (d : FactoryData) (mf : ℚ) :
    (qlt mf (qmul d.target_rate (mkRat 95 100)) = false →
      bottleneckHint d mf = ["unknown"]) ∧
    (qlt mf (qmul d.target_rate (mkRat 95 100)) = true →
      (machineHints d ++ rawSupplyHints d = [] ∧ bottleneckHint d mf = ["unknown"]) ∨
      bottleneckHint d mf = (machineHints d ++ rawSupplyHints d).take 2) := by
  constructor
  · intro hcond
    simp [bottleneckHint, hcond]
  · intro hcond
    cases hempty : (machineHints d ++ rawSupplyHints d).isEmpty with
    | true =>
      exact Or.inl ⟨List.isEmpty_iff.mp hempty, by simp [bottleneckHint, hcond, hempty]⟩
    | false =>
      exact Or.inr (by simp [bottleneckHint, hcond, hempty])

/-- Claim C8 amended, witnessed: at 200 (above 95% of 100) the hint is
`["unknown"]`. -/
theorem c8_hint_amended_witness : bottleneckHint exC8 (qi 200) = ["unknown"] :=
  (c8_hint_amended exC8 (qi 200)).1 (by decide)

/-- Claim C9 (counterexample): the reported total was claimed to equal the
main Edmonds-Karp value.  On `exC2` the value of the main run is 3, while the
response recomputes 8 from the emitted flows (the two lower-bound entries of
the `t -> w -> t` cycle are counted into the sink). -/
theorem c9_reported_differs_from_ek :
    solve_belts 20 exC2 = some (BeltsResp.ok (qi 8)
      [⟨"s", "t", qi 3⟩, ⟨"t", "w", qi 5⟩, ⟨"w", "t", qi 5⟩]) ∧
    mainFlowValue 20 exC2 = some (qi 3) ∧
    ¬ (qi 8 = qi 3) := by decide

/-- Claim C9 (amended): in every ok response, `max_flow_per_min` is the sum of
the emitted flow values into the sink, rounded to two decimals (it need not
equal the Edmonds-Karp value). -/
theorem c9_reported_is_recomputed_sum (fuel : Nat) (d : BeltsData) (mf : ℚ)
    (fl : List FlowEntry) (h : solve_belts fuel d = some (BeltsResp.ok mf fl)) :
    mf = round2 (sumFlowsInto fl d.sink) := by
  unfold solve_belts at h
  split at h
  · exact absurd h (by simp)
  · rename_i heq
    obtain ⟨cut, bal, hr⟩ := step1Result_shape heq
    rw [hr] at h
    exact absurd (Option.some.inj h) (by simp)
  · split at h
    · exact absurd h (by simp)
    · split at h
      · split at h
        · exact absurd h (by simp)
        · exact absurd (Option.some.inj h) (by simp)
      · have h1 := Option.some.inj h
        simp only [BeltsResp.ok.injEq] at h1
        obtain ⟨h2, h3⟩ := h1
        subst h3
        exact h2.symm

/-- Claim C9 amended, witnessed at scenario S1. -/
theorem c9_reported_witness :
    qi 500 = round2 (sumFlowsInto [⟨"s1", "sink", qi 500⟩] exS1.sink) :=
  c9_reported_is_recomputed_sum 20 exS1 (qi 500) [⟨"s1", "sink", qi 500⟩] (by decide)

/-- Claim C10: whenever the step-1 lower-bound circulation gate rejects a
request, the returned response carries empty `tight_nodes` and `tight_edges`
(only `cut_reachable` and `demand_balance` are populated). -/
theorem c10_step1_empty_tight_lists (fuel : Nat) (d : BeltsData) (r : BeltsResp)
    (h : step1Result fuel d = some (some r)) :
    solve_belts fuel d = some r ∧ ∃ cut bal, r = BeltsResp.infeasible cut bal [] [] := by
  refine ⟨?_, step1Result_shape h⟩
  unfold solve_belts
  rw [h]

/-- Claim C10, witnessed on a request whose lower-bound circulation fails. -/
theorem c10_step1_witness :
    solve_belts 20 exC10 = some (BeltsResp.infeasible ["b"] (qi 5) [] []) ∧
    ∃ cut bal,
      (BeltsResp.infeasible ["b"] (qi 5) [] [] : BeltsResp) =
        BeltsResp.infeasible cut bal [] [] :=
  c10_step1_empty_tight_lists 20 exC10
    (BeltsResp.infeasible ["b"] (qi 5) [] []) (by decide)

end Factorio
